import Mathlib

/-!
Shallow embedding of the patient-management service in `src/main.py`.

Modelling conventions:
* Python floats are modelled as exact rationals (`ℚ`); `round(x, 2)` is
  round-half-to-even at two decimals, Python's rounding mode.
* A JSON object (Python dict) is an insertion-ordered association list with
  string keys; `patients.json` is a dict from patient id to a record dict.
* File I/O (`load_data` / `save_data`) is modelled by explicit state passing:
  each handler receives the loaded collection and returns the collection that
  is on disk after the request (unchanged whenever the handler returns before
  reaching `save_data`).
* pydantic validation of a `Patient` constructed from keyword arguments is
  `mkPatient`; it returns `none` when validation fails (in the running
  service that raises, so the handler aborts without saving).
-/

/-- JSON scalar values as they occur in patient records: strings and numbers.
Python ints and floats are both modelled as exact rationals. -/
inductive JVal where
  | jstr (s : String)
  | jnum (q : ℚ)
  deriving DecidableEq, Repr

/-- True exactly on number values. -/
def JVal.isNum : JVal → Bool
  | .jnum _ => true
  | .jstr _ => false

/-- A Python dict with string keys: an insertion-ordered association list. -/
abbrev Dict (α : Type) := List (String × α)

/-- Python `d.get(k)` / `d[k]`: the value at the first matching key. -/
def dget {α : Type} : Dict α → String → Option α
  | [], _ => none
  | (k', v) :: rest, k => if k' = k then some v else dget rest k

/-- Python `k in d`. -/
def dmem {α : Type} (d : Dict α) (k : String) : Bool :=
  (dget d k).isSome

/-- Python `d[k] = v`: replace the value in place if the key exists, else
append the new entry at the end. -/
def dset {α : Type} : Dict α → String → α → Dict α
  | [], k, v => [(k, v)]
  | (k', v') :: rest, k, v =>
      if k' = k then (k, v) :: rest else (k', v') :: dset rest k v

/-- Python `del d[k]`: drop the entry with key `k` (keys are unique in a
Python dict, so dropping the first occurrence is exact). -/
def derase {α : Type} : Dict α → String → Dict α
  | [], _ => []
  | (k', v') :: rest, k => if k' = k then rest else (k', v') :: derase rest k

/-- Round a rational to the nearest integer, ties going to the even integer:
Python's rounding mode for `round`. -/
def roundHalfToEven (q : ℚ) : ℤ :=
  if q - ⌊q⌋ < 1 / 2 then ⌊q⌋
  else if 1 / 2 < q - ⌊q⌋ then ⌊q⌋ + 1
  else if ⌊q⌋ % 2 = 0 then ⌊q⌋ else ⌊q⌋ + 1

/-- Python `round(x, 2)`. -/
def round2 (q : ℚ) : ℚ :=
  (roundHalfToEven (q * 100) : ℚ) / 100

/-- The `Patient` pydantic model's declared fields (`src/main.py:18-25`). -/
structure Patient where
  id : String
  name : String
  city : String
  age : ℤ
  gender : String
  height : ℚ
  weight : ℚ
  deriving DecidableEq, Repr

/-- The field constraints pydantic enforces whenever a `Patient` is
constructed: `0 < age < 120`, `height > 0`, `weight > 0` (gender is an
unconstrained string on this model). -/
def Patient.Valid (p : Patient) : Prop :=
  0 < p.age ∧ p.age < 120 ∧ 0 < p.height ∧ 0 < p.weight

instance (p : Patient) : Decidable p.Valid := by
  unfold Patient.Valid; infer_instance

/-- The `bmi` computed field (`src/main.py:26-30`):
`round(self.weight / (self.height / 100) ** 2, 2)`. -/
def Patient.bmi (p : Patient) : ℚ :=
  round2 (p.weight / (p.height / 100) ^ 2)

/-- The `verdict` computed field (`src/main.py:32-42`), the if/elif chain
written exactly as in the source (Python's chained comparison
`a <= x < b` is the conjunction of the two comparisons). -/
def Patient.verdict (p : Patient) : String :=
  if p.bmi < 18.5 then "Underweight"
  else if 18.5 ≤ p.bmi ∧ p.bmi < 24.9 then "Healthy"
  else if 25 ≤ p.bmi ∧ p.bmi < 29.9 then "Overweight"
  else "Obese"

/-- pydantic `patient.model_dump(exclude=["id"])`: the declared fields except
`id`, followed by the `@computed_field` properties `bmi` and `verdict`,
which pydantic includes in every dump. -/
def Patient.model_dump (p : Patient) : Dict JVal :=
  [("name", .jstr p.name), ("city", .jstr p.city), ("age", .jnum (p.age : ℚ)),
   ("gender", .jstr p.gender), ("height", .jnum p.height),
   ("weight", .jnum p.weight), ("bmi", .jnum p.bmi),
   ("verdict", .jstr p.verdict)]

/-- pydantic `Patient(**kwargs)` (used at `src/main.py:128`): read each
declared field out of the keyword dict and validate it; keys that are not
declared fields (for example a stale `bmi`, `verdict`) are ignored, pydantic's
default `extra="ignore"` behaviour. String fields must be strings, `age` an
integral number with `0 < age < 120`, `height` and `weight` numbers `> 0`
(pydantic's lax string-to-number coercion is not modelled). Returns `none`
when a field is missing, has the wrong shape, or fails its constraint —
in the service that raises a `ValidationError`. -/
def mkPatient (d : Dict JVal) : Option Patient :=
  match dget d "id", dget d "name", dget d "city", dget d "age",
        dget d "gender", dget d "height", dget d "weight" with
  | some (.jstr i), some (.jstr nm), some (.jstr ct), some (.jnum a),
    some (.jstr g), some (.jnum h), some (.jnum w) =>
      if a.den = 1 ∧ 0 < a.num ∧ a.num < 120 ∧ 0 < h ∧ 0 < w then
        some ⟨i, nm, ct, a.num, g, h, w⟩
      else none
  | _, _, _, _, _, _, _ => none

/-- The `PatientUpdate` pydantic model (`src/main.py:44-50`): every field
optional, `none` meaning the field was not supplied in the request body. -/
structure PatientUpdate where
  name : Option String := none
  city : Option String := none
  age : Option ℤ := none
  gender : Option String := none
  height : Option ℚ := none
  weight : Option ℚ := none
  deriving DecidableEq, Repr

/-- The constraints pydantic enforces on a `PatientUpdate` payload when the
request body is parsed (supplied fields only): `0 < age < 120`,
`gender ∈ {Male, Female}`, `height > 0`, `weight > 0`. -/
def PatientUpdate.Valid (u : PatientUpdate) : Prop :=
  (∀ a ∈ u.age, 0 < a ∧ a < 120) ∧
  (∀ g ∈ u.gender, g = "Male" ∨ g = "Female") ∧
  (∀ h ∈ u.height, 0 < h) ∧
  (∀ w ∈ u.weight, 0 < w)

/-- pydantic `patient_update.model_dump(exclude_unset=True)`: the supplied
fields only, in declaration order. -/
def PatientUpdate.model_dump (u : PatientUpdate) : Dict JVal :=
  (u.name.toList.map fun s => ("name", JVal.jstr s)) ++
  (u.city.toList.map fun s => ("city", JVal.jstr s)) ++
  (u.age.toList.map fun a => ("age", JVal.jnum (a : ℚ))) ++
  (u.gender.toList.map fun g => ("gender", JVal.jstr g)) ++
  (u.height.toList.map fun h => ("height", JVal.jnum h)) ++
  (u.weight.toList.map fun w => ("weight", JVal.jnum w))

/-- The merge loop of `update_patient` (`src/main.py:123-124`):
`for key, value in updated_patient_info.items(): existing[key] = value`. -/
def mergeInto (ex : Dict JVal) (upd : Dict JVal) : Dict JVal :=
  upd.foldl (fun d kv => dset d kv.1 kv.2) ex

/-- The persisted contents of `patients.json`: patient id mapped to the
record dict stored under it. -/
abbrev DB := Dict (Dict JVal)

/-- `GET /view/{patient_id}` (`src/main.py:65-71`): the record when the id is
present (200), `none` otherwise (not-found). Never writes the file. -/
def view_patient (db : DB) (pid : String) : Option (Dict JVal) :=
  dget db pid

/-- The sort key `lambda x: x.get(sort_by, 0)` (`src/main.py:86`) as a
rational: a record without the field counts as 0. (A present non-numeric
value would make Python's comparison raise; the claims below restrict to
numeric field values, which is what the data model stores.) -/
def sortKey (field : String) (r : Dict JVal) : ℚ :=
  match (dget r field).getD (JVal.jnum 0) with
  | .jnum q => q
  | .jstr _ => 0

/-- `GET /sort` (`src/main.py:74-87`): 400 (no state change) unless
`sort_by ∈ {height, weight, bmi}` and `order ∈ {asc, desc}`; otherwise the
record values sorted by the key field. Python's `sorted` is a stable sort,
modelled by `List.mergeSort`; `reverse=True` (order `desc`) is a stable
descending sort, the flipped key comparison. The handler never calls
`save_data`, so the state component is always `db` itself. -/
def sort_patients (db : DB) (sort_by : String) (order : String) :
    Except Nat (List (Dict JVal)) × DB :=
  if sort_by ∉ (["height", "weight", "bmi"] : List String) then (.error 400, db)
  else if order ∉ (["asc", "desc"] : List String) then (.error 400, db)
  else if order = "desc" then
    (.ok ((db.map Prod.snd).mergeSort
        fun a b => decide (sortKey sort_by b ≤ sortKey sort_by a)), db)
  else
    (.ok ((db.map Prod.snd).mergeSort
        fun a b => decide (sortKey sort_by a ≤ sortKey sort_by b)), db)

/-- `POST /create` (`src/main.py:89-107`): 400 and no write when the id is
already a key, else store `patient.model_dump(exclude=["id"])` under the id
and return 201. -/
def create_patient (db : DB) (p : Patient) : ℕ × DB :=
  if dmem db p.id then (400, db)
  else (201, dset db p.id p.model_dump)

/-- `PUT /edit/{patient_id}` (`src/main.py:110-135`): 404 and no write when
the id is absent; otherwise merge the supplied fields onto the stored record,
put the id back, re-validate through `Patient`, and on success store the
re-dumped record (200). When re-validation fails the `ValidationError`
escapes before `save_data`, so nothing is written (a 500 response). -/
def update_patient (db : DB) (pid : String) (u : PatientUpdate) : ℕ × DB :=
  match dget db pid with
  | none => (404, db)
  | some ex =>
      let merged := dset (mergeInto ex u.model_dump) "id" (JVal.jstr pid)
      match mkPatient merged with
      | none => (500, db)
      | some pat => (200, dset db pid pat.model_dump)

/-- `DELETE /delete/{patient_id}` (`src/main.py:138-145`): 404 and no write
when the id is absent, else remove the entry and save (200). -/
def delete_patient (db : DB) (pid : String) : ℕ × DB :=
  if dmem db pid then (200, derase db pid) else (404, db)

/-- BMI exactly as the specification words it:
`round(weight / (height/100)^2, 2)`. -/
def bmi_spec (height weight : ℚ) : ℚ :=
  round2 (weight / (height / 100) ^ 2)

/-- Concrete example record (the model's documented example values). -/
def pEx : Patient := ⟨"P001", "John Doe", "New York", 30, "Male", 180, 75⟩

/-- A record whose BMI 24.93 lands in the threshold gap [24.9, 25). -/
def pG : Patient := ⟨"G01", "Gap", "Nowhere", 40, "Female", 100, 24.93⟩

/-- Record A of the specification's sort example: height 180, weight 75. -/
def pA : Patient := ⟨"A01", "Alice", "Austin", 35, "Female", 180, 75⟩

/-- Record B of the specification's sort example: height 160, weight 50. -/
def pB : Patient := ⟨"B01", "Bob", "Boston", 25, "Male", 160, 50⟩

/-- pEx after a partial update setting weight to 80. -/
def patW : Patient := ⟨"P001", "John Doe", "New York", 30, "Male", 180, 80⟩

/-- A partial update supplying only the weight field. -/
def uW : PatientUpdate := { weight := some 80 }

/-- A one-record stored collection. -/
def dbW : DB := [("P001", pEx.model_dump)]

/-- The stored collection of the specification's sort example. -/
def dbS : DB := [("A01", pA.model_dump), ("B01", pB.model_dump)]

/-- A collection keyed by an id different from pEx's. -/
def dbB : DB := [("B01", pB.model_dump)]

theorem dget_dset_self {α : Type} (d : Dict α) (k : String) (v : α) :
    dget (dset d k v) k = some v := by
  induction d with
  | nil => simp [dset, dget]
  | cons kv tl ih =>
      obtain ⟨k0, v0⟩ := kv
      by_cases h : k0 = k
      · simp [dset, dget, h]
      · simp [dset, dget, h, ih]

theorem dget_dset_ne {α : Type} (d : Dict α) (k : String) (v : α) (k' : String)
    (h : k' ≠ k) : dget (dset d k v) k' = dget d k' := by
  induction d with
  | nil => simp [dset, dget, Ne.symm h]
  | cons kv tl ih =>
      obtain ⟨k0, v0⟩ := kv
      by_cases hk : k0 = k
      · subst hk
        simp [dset, dget, Ne.symm h]
      · simp [dset, dget, hk, ih]

theorem dget_eq_none_of_not_mem {α : Type} (d : Dict α) (k : String)
    (h : k ∉ d.map Prod.fst) : dget d k = none := by
  induction d with
  | nil => rfl
  | cons kv tl ih =>
      obtain ⟨k0, v0⟩ := kv
      simp only [List.map_cons, List.mem_cons] at h
      push_neg at h
      simp [dget, Ne.symm h.1, ih h.2]

theorem dget_derase_self {α : Type} (d : Dict α) (k : String)
    (h : (d.map Prod.fst).Nodup) : dget (derase d k) k = none := by
  induction d with
  | nil => rfl
  | cons kv tl ih =>
      obtain ⟨k0, v0⟩ := kv
      simp only [List.map_cons, List.nodup_cons] at h
      by_cases hk : k0 = k
      · subst hk
        simp [derase, dget_eq_none_of_not_mem tl k0 h.1]
      · simp [derase, dget, hk, ih h.2]

theorem dget_derase_ne {α : Type} (d : Dict α) (k k' : String)
    (h : k' ≠ k) : dget (derase d k) k' = dget d k' := by
  induction d with
  | nil => rfl
  | cons kv tl ih =>
      obtain ⟨k0, v0⟩ := kv
      by_cases hk : k0 = k
      · subst hk
        simp [derase, dget, Ne.symm h]
      · simp [derase, dget, hk, ih]

theorem mergeInto_get (ex upd : Dict JVal) (h : (upd.map Prod.fst).Nodup)
    (k : String) :
    dget (mergeInto ex upd) k =
      match dget upd k with
      | some v => some v
      | none => dget ex k := by
  induction upd generalizing ex with
  | nil => simp [mergeInto, dget]
  | cons kv tl ih =>
      obtain ⟨k0, v0⟩ := kv
      simp only [List.map_cons, List.nodup_cons] at h
      have step : mergeInto ex ((k0, v0) :: tl) = mergeInto (dset ex k0 v0) tl := rfl
      rw [step, ih (dset ex k0 v0) h.2]
      by_cases hk : k0 = k
      · subst hk
        rw [dget_eq_none_of_not_mem tl k0 h.1]
        simp [dget, dget_dset_self]
      · cases hdk : dget tl k with
        | none => simp [dget, hk, hdk, dget_dset_ne ex k0 v0 k (Ne.symm hk)]
        | some v => simp [dget, hk, hdk]

theorem updKeys_nodup (u : PatientUpdate) :
    (u.model_dump.map Prod.fst).Nodup := by
  rcases u with ⟨n, c, a, g, hh, w⟩
  cases n <;> cases c <;> cases a <;> cases g <;> cases hh <;> cases w <;>
    simp [PatientUpdate.model_dump]

theorem mkPatient_valid (d : Dict JVal) (p : Patient)
    (h : mkPatient d = some p) : p.Valid := by
  unfold mkPatient at h
  split at h
  · split at h
    · rename_i hcond
      cases h
      exact ⟨hcond.2.1, hcond.2.2.1, hcond.2.2.2.1, hcond.2.2.2.2⟩
    · exact absurd h (by simp)
  · exact absurd h (by simp)

theorem mkPatient_weight (d : Dict JVal) (p : Patient)
    (h : mkPatient d = some p) :
    dget d "weight" = some (JVal.jnum p.weight) ∧ 0 < p.weight := by
  unfold mkPatient at h
  split at h
  · rename_i i nm ct a g hh w heq1 heq2 heq3 heq4 heq5 heq6 heq7
    split at h
    · rename_i hcond
      cases h
      exact ⟨heq7, hcond.2.2.2.2⟩
    · exact absurd h (by simp)
  · exact absurd h (by simp)

/-- C1: for every patient record with height > 0 and weight > 0, the derived
bmi equals round(weight / (height/100)^2, 2), the formula as the
specification words it. -/
theorem claim_C1_bmi_formula (p : Patient) (hh : 0 < p.height)
    (hw : 0 < p.weight) : p.bmi = bmi_spec p.height p.weight := rfl

theorem claim_C1_witness :
    0 < pEx.height ∧ 0 < pEx.weight ∧
      pEx.bmi = bmi_spec pEx.height pEx.weight :=
  ⟨by norm_num [pEx], by norm_num [pEx],
   claim_C1_bmi_formula pEx (by norm_num [pEx]) (by norm_num [pEx])⟩

/-- C2: for every patient record with height > 0 and weight > 0 the verdict
follows the threshold table: Underweight below 18.5; Healthy on
[18.5, 24.9); Overweight on [25, 29.9); Obese otherwise — in particular
every bmi in the gap [24.9, 25) yields Obese. -/
theorem claim_C2_verdict_table (p : Patient) (hh : 0 < p.height)
    (hw : 0 < p.weight) :
    (p.bmi < 18.5 → p.verdict = "Underweight") ∧
    (18.5 ≤ p.bmi ∧ p.bmi < 24.9 → p.verdict = "Healthy") ∧
    (25 ≤ p.bmi ∧ p.bmi < 29.9 → p.verdict = "Overweight") ∧
    (¬ p.bmi < 18.5 → ¬ (18.5 ≤ p.bmi ∧ p.bmi < 24.9) →
      ¬ (25 ≤ p.bmi ∧ p.bmi < 29.9) → p.verdict = "Obese") ∧
    (24.9 ≤ p.bmi ∧ p.bmi < 25 → p.verdict = "Obese") := by
  unfold Patient.verdict
  refine ⟨fun h1 => ?_, fun h2 => ?_, fun h3 => ?_, fun h1 h2 h3 => ?_,
    fun hg => ?_⟩
  · rw [if_pos h1]
  · rw [if_neg (not_lt.mpr h2.1), if_pos h2]
  · rw [if_neg (not_lt.mpr (by linarith [h3.1])),
      if_neg (by rintro ⟨h1, hl⟩; linarith [h3.1]), if_pos h3]
  · rw [if_neg h1, if_neg h2, if_neg h3]
  · have h1 : ¬ p.bmi < 18.5 := not_lt.mpr (by linarith [hg.1])
    have h2 : ¬ (18.5 ≤ p.bmi ∧ p.bmi < 24.9) := by
      rintro ⟨h, hl⟩; linarith [hg.1]
    have h3 : ¬ (25 ≤ p.bmi ∧ p.bmi < 29.9) := by
      rintro ⟨hl, h⟩; linarith [hg.2]
    rw [if_neg h1, if_neg h2, if_neg h3]

theorem claim_C2_witness :
    0 < pG.height ∧ 0 < pG.weight ∧
      24.9 ≤ pG.bmi ∧ pG.bmi < 25 ∧ pG.verdict = "Obese" :=
  ⟨by norm_num [pG], by norm_num [pG],
   by norm_num [pG, Patient.bmi, round2, roundHalfToEven],
   by norm_num [pG, Patient.bmi, round2, roundHalfToEven],
   (claim_C2_verdict_table pG (by norm_num [pG]) (by norm_num [pG])).2.2.2.2
     ⟨by norm_num [pG, Patient.bmi, round2, roundHalfToEven],
      by norm_num [pG, Patient.bmi, round2, roundHalfToEven]⟩⟩

/-- C3 counterexample: the claim says the stored value holds only the base
fields and that bmi and verdict are never persisted; but creating the example
patient stores a record whose "bmi" key holds 23.15 and whose "verdict" key
holds "Healthy" (pydantic computed fields are part of model_dump). -/
theorem claim_C3_counterexample :
    dget ((dget (create_patient [] pEx).2 "P001").getD []) "bmi" =
        some (JVal.jnum (463 / 20)) ∧
    dget ((dget (create_patient [] pEx).2 "P001").getD []) "verdict" =
        some (JVal.jstr "Healthy") := by
  have hb : pEx.bmi = 463 / 20 := by
    norm_num [pEx, Patient.bmi, round2, roundHalfToEven]
  have hv : pEx.verdict = "Healthy" := by
    rw [Patient.verdict, hb]
    norm_num
  have hid : pEx.id = "P001" := rfl
  constructor <;>
    simp [create_patient, dmem, dget, dset, Patient.model_dump, hid, hb, hv]

/-- C3 amended: a stored value written by create or update is exactly the
model dump of the validated record: the six base fields followed by the
derived bmi and verdict (which therefore ARE persisted), with the identifier
excluded from the value. -/
theorem claim_C3_stored_shape (db : DB) (p : Patient) (pid : String)
    (u : PatientUpdate) :
    (dmem db p.id = false →
      (create_patient db p).2 = dset db p.id p.model_dump) ∧
    (∀ ex pat, dget db pid = some ex →
      mkPatient (dset (mergeInto ex u.model_dump) "id" (JVal.jstr pid)) =
          some pat →
      (update_patient db pid u).2 = dset db pid pat.model_dump) ∧
    p.model_dump.map Prod.fst =
      ["name", "city", "age", "gender", "height", "weight", "bmi",
       "verdict"] ∧
    dget p.model_dump "id" = none ∧
    dget p.model_dump "bmi" = some (JVal.jnum p.bmi) ∧
    dget p.model_dump "verdict" = some (JVal.jstr p.verdict) := by
  refine ⟨fun h => ?_, fun ex pat hex hmk => ?_, rfl, ?_, ?_, ?_⟩
  · simp [create_patient, h]
  · simp [update_patient, hex, hmk]
  · simp [Patient.model_dump, dget]
  · simp [Patient.model_dump, dget]
  · simp [Patient.model_dump, dget]

theorem claim_C3_witness :
    (create_patient [] pEx).2 = dset [] "P001" pEx.model_dump ∧
    (update_patient dbW "P001" uW).2 = dset dbW "P001" patW.model_dump :=
  ⟨(claim_C3_stored_shape [] pEx "P001" uW).1 rfl,
   (claim_C3_stored_shape dbW pEx "P001" uW).2.1 pEx.model_dump patW rfl
     (by decide)⟩

/-- C5: creating a record whose identifier is already a key signals the
conflict error 400 and leaves the persisted state exactly unchanged. -/
theorem claim_C5_create_conflict (db : DB) (p : Patient)
    (h : dmem db p.id = true) : create_patient db p = (400, db) := by
  simp [create_patient, h]

theorem claim_C5_witness : create_patient dbW pEx = (400, dbW) :=
  claim_C5_create_conflict dbW pEx (by decide)

/-- C6: updating an identifier that is not a key signals not-found 404 and
leaves the persisted state exactly unchanged. -/
theorem claim_C6_update_missing (db : DB) (pid : String) (u : PatientUpdate)
    (h : dmem db pid = false) : update_patient db pid u = (404, db) := by
  cases hd : dget db pid with
  | none => simp [update_patient, hd]
  | some v =>
      exfalso
      unfold dmem at h
      rw [hd] at h
      simp at h

theorem claim_C6_witness : update_patient [] "P404" uW = (404, []) :=
  claim_C6_update_missing [] "P404" uW rfl

/-- C8: a sort request whose sort_by is not height/weight/bmi or whose order
is not asc/desc gets the bad-query error 400 and the persisted storage is
untouched. -/
theorem claim_C8_sort_bad_query (db : DB) (f o : String)
    (h : f ∉ (["height", "weight", "bmi"] : List String) ∨
      o ∉ (["asc", "desc"] : List String)) :
    sort_patients db f o = (.error 400, db) := by
  rcases h with h | h
  · simp [sort_patients, h]
  · by_cases hf : f ∈ (["height", "weight", "bmi"] : List String)
    · simp [sort_patients, hf, h]
    · simp [sort_patients, hf]

theorem claim_C8_witness :
    sort_patients dbW "name" "asc" = (.error 400, dbW) :=
  claim_C8_sort_bad_query dbW "name" "asc" (Or.inl (by decide))

/-- C9: after deleting a present identifier, a view-one of the same
identifier yields not-found. -/
theorem claim_C9_delete_then_view (db : DB) (pid : String)
    (hnd : (db.map Prod.fst).Nodup) (h : dmem db pid = true) :
    view_patient (delete_patient db pid).2 pid = none := by
  simp only [delete_patient, h, if_pos, view_patient]
  simpa using dget_derase_self db pid hnd

theorem claim_C9_witness :
    view_patient (delete_patient dbW "P001").2 "P001" = none :=
  claim_C9_delete_then_view dbW "P001" (by decide) (by decide)

/-- C10: a successful create, update or delete on one identifier leaves the
stored entry of every other identifier exactly unchanged. -/
theorem claim_C10_frame (db : DB) (k : String) :
    (∀ p : Patient, (create_patient db p).1 = 201 → k ≠ p.id →
        dget (create_patient db p).2 k = dget db k) ∧
    (∀ pid u, (update_patient db pid u).1 = 200 → k ≠ pid →
        dget (update_patient db pid u).2 k = dget db k) ∧
    (∀ pid, (delete_patient db pid).1 = 200 → k ≠ pid →
        dget (delete_patient db pid).2 k = dget db k) := by
  refine ⟨fun p _ hk => ?_, fun pid u _ hk => ?_, fun pid _ hk => ?_⟩
  · by_cases h : dmem db p.id
    · simp [create_patient, h]
    · simp [create_patient, h, dget_dset_ne db p.id p.model_dump k hk]
  · cases hex : dget db pid with
    | none => simp [update_patient, hex]
    | some ex =>
        cases hmk : mkPatient (dset (mergeInto ex u.model_dump) "id"
            (JVal.jstr pid)) with
        | none => simp [update_patient, hex, hmk]
        | some pat =>
            simp [update_patient, hex, hmk,
              dget_dset_ne db pid pat.model_dump k hk]
  · by_cases h : dmem db pid
    · simp [delete_patient, h, dget_derase_ne db pid k hk]
    · simp [delete_patient, h]

theorem claim_C10_witness :
    dget (create_patient dbB pEx).2 "B01" = dget dbB "B01" ∧
    dget (update_patient dbW "P001" uW).2 "ZZZ" = dget dbW "ZZZ" ∧
    dget (delete_patient dbW "P001").2 "ZZZ" = dget dbW "ZZZ" :=
  ⟨(claim_C10_frame dbB "B01").1 pEx (by decide) (by decide),
   (claim_C10_frame dbW "ZZZ").2.1 "P001" uW (by decide) (by decide),
   (claim_C10_frame dbW "ZZZ").2.2 "P001" (by decide) (by decide)⟩

/-- C4: for an existing identifier, update merges exactly the supplied
fields onto the stored record (a key not supplied keeps its prior value),
re-validates the merged record through the Patient model before storing the
validated dump, and rejects an invalid merged record — in particular one
whose weight is not positive — leaving the state unchanged. -/
theorem claim_C4_update_merge (db : DB) (pid : String) (u : PatientUpdate)
    (ex : Dict JVal) (hex : dget db pid = some ex) :
    (∀ k, dget (mergeInto ex u.model_dump) k =
        match dget u.model_dump k with
        | some v => some v
        | none => dget ex k) ∧
    (∀ pat,
        mkPatient (dset (mergeInto ex u.model_dump) "id" (JVal.jstr pid)) =
            some pat →
        pat.Valid ∧
          update_patient db pid u = (200, dset db pid pat.model_dump)) ∧
    (mkPatient (dset (mergeInto ex u.model_dump) "id" (JVal.jstr pid)) =
        none → update_patient db pid u = (500, db)) ∧
    (∀ q,
        dget (dset (mergeInto ex u.model_dump) "id" (JVal.jstr pid))
            "weight" = some (JVal.jnum q) → q ≤ 0 →
        update_patient db pid u = (500, db)) := by
  refine ⟨fun k => mergeInto_get ex u.model_dump (updKeys_nodup u) k,
    fun pat hmk =>
      ⟨mkPatient_valid _ pat hmk, by simp [update_patient, hex, hmk]⟩,
    fun hmk => by simp [update_patient, hex, hmk],
    fun q hq hle => ?_⟩
  cases hmk : mkPatient (dset (mergeInto ex u.model_dump) "id"
      (JVal.jstr pid)) with
  | none => simp [update_patient, hex, hmk]
  | some pat =>
      exfalso
      obtain ⟨hw, hpos⟩ := mkPatient_weight _ pat hmk
      rw [hq] at hw
      simp only [Option.some.injEq, JVal.jnum.injEq] at hw
      rw [hw] at hle
      linarith

theorem claim_C4_witness :
    dget (mergeInto pEx.model_dump uW.model_dump) "weight" =
        some (JVal.jnum 80) ∧
    dget (mergeInto pEx.model_dump uW.model_dump) "name" =
        some (JVal.jstr "John Doe") ∧
    patW.Valid ∧
    update_patient dbW "P001" uW = (200, dset dbW "P001" patW.model_dump) := by
  have h := claim_C4_update_merge dbW "P001" uW pEx.model_dump rfl
  have h2 := h.2.1 patW (by decide)
  refine ⟨?_, ?_, h2.1, h2.2⟩
  · rw [h.1 "weight"]
    decide
  · rw [h.1 "name"]
    decide

/-- C7: with sort_by in {height, weight, bmi} and order in {asc, desc} (and
each record's sort field, when present, a number, as the data model stores),
sort leaves the storage untouched and returns the stored record values
ordered by the named field — a record missing the field counting as 0 —
ascending for asc and descending for desc, by a stable sort: two records
with equal keys keep their stored relative order. -/
theorem claim_C7_sort_order (db : DB) (f o : String)
    (hf : f = "height" ∨ f = "weight" ∨ f = "bmi")
    (ho : o = "asc" ∨ o = "desc")
    (hnum : ∀ r ∈ db.map Prod.snd,
      JVal.isNum ((dget r f).getD (JVal.jnum 0)) = true) :
    (sort_patients db f o).2 = db ∧
    ∃ l, (sort_patients db f o).1 = .ok l ∧
      l.Perm (db.map Prod.snd) ∧
      (o = "asc" → l.Pairwise fun a b => sortKey f a ≤ sortKey f b) ∧
      (o = "desc" → l.Pairwise fun a b => sortKey f b ≤ sortKey f a) ∧
      (∀ a b, [a, b].Sublist (db.map Prod.snd) →
        sortKey f a = sortKey f b → [a, b].Sublist l) ∧
      (∀ r, dget r f = none → sortKey f r = 0) := by
  have hfm : f ∈ (["height", "weight", "bmi"] : List String) := by
    rcases hf with h | h | h <;> simp [h]
  have hmiss : ∀ r : Dict JVal, dget r f = none → sortKey f r = 0 := by
    intro r hr
    simp [sortKey, hr]
  rcases ho with ho | ho <;> subst ho
  · have hrun : sort_patients db f "asc" =
        (.ok ((db.map Prod.snd).mergeSort
          fun a b => decide (sortKey f a ≤ sortKey f b)), db) := by
      simp [sort_patients, hfm]
    have htr : ∀ a b c : Dict JVal,
        decide (sortKey f a ≤ sortKey f b) = true →
        decide (sortKey f b ≤ sortKey f c) = true →
        decide (sortKey f a ≤ sortKey f c) = true := by
      intro a b c hab hbc
      rw [decide_eq_true_eq] at hab hbc ⊢
      exact le_trans hab hbc
    have hto : ∀ a b : Dict JVal,
        (decide (sortKey f a ≤ sortKey f b) ||
          decide (sortKey f b ≤ sortKey f a)) = true := by
      intro a b
      rw [Bool.or_eq_true, decide_eq_true_eq, decide_eq_true_eq]
      exact le_total _ _
    rw [hrun]
    refine ⟨rfl, _, rfl, List.mergeSort_perm _ _, fun _ => ?_,
      fun hcon => absurd hcon (by decide), fun a b hsub hkey => ?_, hmiss⟩
    · exact (List.sorted_mergeSort htr hto (db.map Prod.snd)).imp
        fun hb => of_decide_eq_true hb
    · exact List.pair_sublist_mergeSort htr hto
        (decide_eq_true (le_of_eq hkey)) hsub
  · have hrun : sort_patients db f "desc" =
        (.ok ((db.map Prod.snd).mergeSort
          fun a b => decide (sortKey f b ≤ sortKey f a)), db) := by
      simp [sort_patients, hfm]
    have htr : ∀ a b c : Dict JVal,
        decide (sortKey f b ≤ sortKey f a) = true →
        decide (sortKey f c ≤ sortKey f b) = true →
        decide (sortKey f c ≤ sortKey f a) = true := by
      intro a b c hab hbc
      rw [decide_eq_true_eq] at hab hbc ⊢
      exact le_trans hbc hab
    have hto : ∀ a b : Dict JVal,
        (decide (sortKey f b ≤ sortKey f a) ||
          decide (sortKey f a ≤ sortKey f b)) = true := by
      intro a b
      rw [Bool.or_eq_true, decide_eq_true_eq, decide_eq_true_eq]
      exact (le_total _ _).symm
    rw [hrun]
    refine ⟨rfl, _, rfl, List.mergeSort_perm _ _,
      fun hcon => absurd hcon (by decide), fun _ => ?_,
      fun a b hsub hkey => ?_, hmiss⟩
    · exact (List.sorted_mergeSort htr hto (db.map Prod.snd)).imp
        fun hb => of_decide_eq_true hb
    · exact List.pair_sublist_mergeSort htr hto
        (decide_eq_true (le_of_eq hkey.symm)) hsub

theorem claim_C7_witness :
    (sort_patients dbS "bmi" "desc").2 = dbS ∧
    ∃ l, (sort_patients dbS "bmi" "desc").1 = .ok l ∧
      l.Perm (dbS.map Prod.snd) ∧
      ("desc" = "asc" →
        l.Pairwise fun a b => sortKey "bmi" a ≤ sortKey "bmi" b) ∧
      ("desc" = "desc" →
        l.Pairwise fun a b => sortKey "bmi" b ≤ sortKey "bmi" a) ∧
      (∀ a b, [a, b].Sublist (dbS.map Prod.snd) →
        sortKey "bmi" a = sortKey "bmi" b → [a, b].Sublist l) ∧
      (∀ r, dget r "bmi" = none → sortKey "bmi" r = 0) :=
  claim_C7_sort_order dbS "bmi" "desc" (Or.inr (Or.inr rfl)) (Or.inr rfl)
    (by decide)
